import Mathlib

/-!
# Verification of the spine-db metadata-indexing pipeline

Shallow embedding of `src/spine_db/extractor.py`, `src/spine_db/indexer.py`
and the catalog table of `src/spine_db/schema.py`.

Modelling conventions:
* The filesystem and the HDF5 reader are an explicit environment `FSEnv`:
  `resolve` is `Path(p).resolve()`, `parts` is `Path(p).parts`, `stem` is
  `Path(p).stem`, `pathExists` is `Path(p).exists()`, `glob` is
  `glob.glob(p)`, and `read` is `h5py.File(p, "r")` — `none` when opening
  or reading the container raises (the `except Exception` path).
* An HDF5 file is its root attributes (an association list, Python `str`
  values) plus an optional `events` table; a column of the table is
  `some values` exactly when its name is in `events.dtype.names`.
* The catalog store is the list of committed `SpineFile` rows, in insertion
  order; the SQL unique constraint on `file_path` makes a conflicting
  insert fail, and rollback restores the pre-attempt list.  `id` and
  `created_at` are assigned by the store and play no role in the claims,
  so the row model omits them.
* Python `print` side effects become explicit data: per-file outcome
  values collected into a log, and the final counters an `IndexReport`.
* Exceptions become `Option`/`Except` results.
-/

/-- One row of the `spine_files` table (`schema.py`, class `SpineFile`),
without the store-assigned `id`/`created_at` columns. -/
structure SpineFile where
  file_path : String
  spine_version : Option String
  spine_prod_version : Option String
  model_name : Option String
  dataset_name : Option String
  run : Option Int
  subrun : Option Int
  event_min : Option Int
  event_max : Option Int
  num_events : Option Int
deriving DecidableEq, Repr

/-- The metadata dict built by `extract_metadata`: the same ten keys,
each `None` (absent) or a value. -/
structure Metadata where
  file_path : Option String
  spine_version : Option String
  spine_prod_version : Option String
  model_name : Option String
  dataset_name : Option String
  run : Option Int
  subrun : Option Int
  event_min : Option Int
  event_max : Option Int
  num_events : Option Int
deriving DecidableEq, Repr

/-- The `events` dataset of a container: each column is `some values`
exactly when its name occurs in `events.dtype.names`. -/
structure EventsTable where
  run : Option (List Int)
  subrun : Option (List Int)
  event : Option (List Int)
  event_id : Option (List Int)
deriving DecidableEq, Repr

/-- A readable HDF5 container: root attributes (as produced by
`dict(f.attrs)`, values via `str(...)`) and the optional `events` table. -/
structure H5File where
  attrs : List (String × String)
  events : Option EventsTable
deriving DecidableEq, Repr

/-- The filesystem / HDF5 environment the Python code reads through. -/
structure FSEnv where
  resolve : String → String
  parts : String → List String
  stem : String → String
  pathExists : String → Bool
  glob : String → List String
  read : String → Option H5File

/-- Python `attrs` dict membership + lookup: `attrs[k]` when `k in attrs`. -/
def attrLookup (attrs : List (String × String)) (k : String) : Option String :=
  (attrs.find? (fun kv => kv.1 == k)).map (fun kv => kv.2)

/-- Python truthiness test `not metadata[key]` for an optional string:
true on `None` and on the empty string. -/
def pyFalsy : Option String → Bool
  | none => true
  | some s => s.isEmpty

/-- The fixed known-site list of `extractor.py` line 115, in source order. -/
def knownSites : List String := ["icarus", "sbnd", "2x2", "nd-lar", "fsd"]

/-- Lines 62–65: `spine_version` from attribute `spine_version`, falling
back to `version`. -/
def attrStepVersion (m : Metadata) (attrs : List (String × String)) : Metadata :=
  match attrLookup attrs "spine_version" with
  | some v => { m with spine_version := some v }
  | none => match attrLookup attrs "version" with
    | some v => { m with spine_version := some v }
    | none => m

/-- Lines 68–69: `spine_prod_version` from attribute `spine_prod_version`. -/
def attrStepProd (m : Metadata) (attrs : List (String × String)) : Metadata :=
  match attrLookup attrs "spine_prod_version" with
  | some v => { m with spine_prod_version := some v }
  | none => m

/-- Lines 72–75: `model_name` from attribute `model_name`, falling back to
`config_name`. -/
def attrStepModel (m : Metadata) (attrs : List (String × String)) : Metadata :=
  match attrLookup attrs "model_name" with
  | some v => { m with model_name := some v }
  | none => match attrLookup attrs "config_name" with
    | some v => { m with model_name := some v }
    | none => m

/-- Lines 78–81: `dataset_name` from attribute `dataset_name`, falling back
to `dataset`. -/
def attrStepDataset (m : Metadata) (attrs : List (String × String)) : Metadata :=
  match attrLookup attrs "dataset_name" with
  | some v => { m with dataset_name := some v }
  | none => match attrLookup attrs "dataset" with
    | some v => { m with dataset_name := some v }
    | none => m

/-- The root-attribute phase of `extract_metadata` (lines 59–81), the four
statements in source order. -/
def applyAttrs (m : Metadata) (attrs : List (String × String)) : Metadata :=
  attrStepDataset (attrStepModel (attrStepProd (attrStepVersion m attrs) attrs) attrs) attrs

/-- Lines 107–110: when the event-identifier column is non-empty, set
`event_min`/`event_max`/`num_events` from it. -/
def setEventRange (m : Metadata) (ids : List Int) : Metadata :=
  if ids.length > 0 then
    { m with event_min := ids.min?, event_max := ids.max?,
             num_events := some ids.length }
  else m

/-- Lines 90–92: first row of the `run` column when it exists
(`runs[0] if len(runs) > 0 else None`). -/
def eventsStepRun (m : Metadata) (ev : EventsTable) : Metadata :=
  match ev.run with
  | some runs => { m with run := runs.head? }
  | none => m

/-- Lines 94–96: first row of the `subrun` column when it exists. -/
def eventsStepSubrun (m : Metadata) (ev : EventsTable) : Metadata :=
  match ev.subrun with
  | some subruns => { m with subrun := subruns.head? }
  | none => m

/-- Lines 98–110: the event range from column `event`, falling back to
`event_id`. -/
def eventsStepRange (m : Metadata) (ev : EventsTable) : Metadata :=
  match ev.event with
  | some ids => setEventRange m ids
  | none => match ev.event_id with
    | some ids => setEventRange m ids
    | none => m

/-- The `events`-dataset phase of `extract_metadata` (lines 85–110), the
three statements in source order. -/
def applyEvents (m : Metadata) (ev : EventsTable) : Metadata :=
  eventsStepRange (eventsStepSubrun (eventsStepRun m ev) ev) ev

/-- Lines 112–118: when `model_name` is still falsy, the first entry of the
known-site list that occurs among the path parts (the `for`/`break` loop). -/
def fallbackModel (env : FSEnv) (fp : String) (m : Metadata) : Metadata :=
  if pyFalsy m.model_name then
    match knownSites.find? (fun part => (env.parts fp).contains part) with
    | some part => { m with model_name := some part }
    | none => m
  else m

/-- Lines 121–123: when `dataset_name` is still falsy, the filename stem. -/
def fallbackDataset (env : FSEnv) (fp : String) (m : Metadata) : Metadata :=
  if pyFalsy m.dataset_name then { m with dataset_name := some (env.stem fp) }
  else m

/-- The fallback-inference phase of `extract_metadata` (lines 112–123). -/
def applyFallbacks (env : FSEnv) (fp : String) (m : Metadata) : Metadata :=
  fallbackDataset env fp (fallbackModel env fp m)

/-- `extract_metadata` of `extractor.py`: resolve the path, initialise the
dict with `file_path` only, and run the three phases inside the
`try` block; on an open/read failure the `except` clause returns the dict
as initialised. -/
def extract_metadata (env : FSEnv) (file_path : String) : Metadata :=
  let fp := env.resolve file_path
  let base : Metadata :=
    { file_path := some fp, spine_version := none, spine_prod_version := none,
      model_name := none, dataset_name := none, run := none, subrun := none,
      event_min := none, event_max := none, num_events := none }
  match env.read fp with
  | none => base
  | some f =>
    applyFallbacks env fp
      (match f.events with
       | some ev => applyEvents (applyAttrs base f.attrs) ev
       | none => applyAttrs base f.attrs)

/-- `validate_metadata` of `extractor.py`: the dict has a non-`None`
`file_path`. -/
def validate_metadata (m : Metadata) : Bool :=
  m.file_path.isSome

/-- Per-file outcome, standing for the per-file log line that
`index_file`/`index_files` prints. -/
inductive Outcome where
  | skipped (path : String)
  | indexed (path : String)
  | invalid (path : String)
  | insertFailed (path : String)
  | notFound (path : String)
deriving DecidableEq, Repr

/-- True exactly on the `ERROR: Invalid metadata` outcome. -/
def Outcome.isInvalid : Outcome → Bool
  | .invalid _ => true
  | _ => false

/-- `session.query(SpineFile).filter_by(file_path=p).first()`: first row of
the catalog whose `file_path` equals `p` exactly. -/
def find_by_path (store : List SpineFile) (p : String) : Option SpineFile :=
  store.find? (fun r => r.file_path == p)

/-- `session.add(r); session.commit()`: the commit succeeds and appends the
row unless the unique constraint on `file_path` (`schema.py` line 53) is
violated, in which case it fails and `session.rollback()` restores the
store as it was. -/
def insertRecord (store : List SpineFile) (r : SpineFile) :
    Option (List SpineFile) :=
  if store.any (fun r' => r'.file_path == r.file_path) then none
  else some (store ++ [r])

/-- The `SpineFile(...)` row constructed at `indexer.py` lines 44–55 from
the extracted metadata dict, with `file_path` the dict value. -/
def rowFromMetadata (metadata : Metadata) (rp : String) : SpineFile :=
  { file_path := rp, spine_version := metadata.spine_version,
    spine_prod_version := metadata.spine_prod_version,
    model_name := metadata.model_name,
    dataset_name := metadata.dataset_name, run := metadata.run,
    subrun := metadata.subrun, event_min := metadata.event_min,
    event_max := metadata.event_max, num_events := metadata.num_events }

/-- `index_file` of `indexer.py`: resolve, optionally skip an existing row,
extract, validate, insert; the `except` clause turns an insert failure into
rollback plus `False`.  Returns the Python `bool` result, the store after
the call, and the outcome line printed. -/
def index_file (env : FSEnv) (store : List SpineFile) (file_path : String)
    (skip_existing : Bool := true) : Bool × List SpineFile × Outcome :=
  let fp := env.resolve file_path
  if skip_existing && (find_by_path store fp).isSome then
    (true, store, Outcome.skipped fp)
  else
    let metadata := extract_metadata env fp
    match metadata.file_path with
    | none => (false, store, Outcome.invalid fp)
    | some rp =>
      match insertRecord store (rowFromMetadata metadata rp) with
      | some store' => (true, store', Outcome.indexed fp)
      | none => (false, store, Outcome.insertFailed fp)

/-- `"*" in pattern or "?" in pattern` (`indexer.py` line 103): whether
one of the wildcard characters occurs among the pattern's characters. -/
def hasWildcard (pat : String) : Bool :=
  pat.data.contains '*' || pat.data.contains '?'

/-- The candidate-list expansion loop of `index_files` (lines 101–106):
wildcard entries expand through `glob.glob`, the rest are appended
literally, in input order. -/
def expandPatterns (env : FSEnv) : List String → List String
  | [] => []
  | pat :: rest =>
    (if hasWildcard pat then env.glob pat else [pat]) ++ expandPatterns env rest

/-- One iteration of the `for file_path in file_list` loop of
`index_files` (lines 114–122): the existence check, then `index_file`,
else the `File not found` warning. -/
def processFile (env : FSEnv) (store : List SpineFile) (p : String)
    (skip : Bool) : Bool × List SpineFile × Outcome :=
  if env.pathExists p then index_file env store p skip
  else (false, store, Outcome.notFound p)

/-- The whole per-file loop of `index_files`: final store, success count,
error count, and the outcome log in processing order. -/
def runBatch (env : FSEnv) (skip : Bool) :
    List SpineFile → List String → List SpineFile × Nat × Nat × List Outcome
  | store, [] => (store, 0, 0, [])
  | store, p :: rest =>
    match processFile env store p skip with
    | (ok, store', oc) =>
      match runBatch env skip store' rest with
      | (storeF, sc, ec, log) =>
        (storeF, (if ok then 1 else 0) + sc, (if ok then 0 else 1) + ec,
         oc :: log)

/-- The aggregate result `index_files` reports: candidate total, success
and error counters, and the per-file outcome log. -/
structure IndexReport where
  total : Nat
  success : Nat
  errors : Nat
  log : List Outcome
deriving DecidableEq, Repr

/-- `index_files` of `indexer.py`.  `conn` is the result of
`get_engine`/`create_tables`/`get_session` at the start of the run: `none`
when establishing the connection or creating the schema raises (fatal),
otherwise the store the session sees.  Per-file work never escapes the
loop, so an established connection always yields `Except.ok` with the
report and the final store. -/
def index_files (env : FSEnv) (conn : Option (List SpineFile))
    (files : List String) (skip_existing : Bool := true) :
    Except Unit (IndexReport × List SpineFile) :=
  match conn with
  | none => Except.error ()
  | some store =>
    let file_list := expandPatterns env files
    match runBatch env skip_existing store file_list with
    | (store', sc, ec, log) =>
      Except.ok ({ total := file_list.length, success := sc, errors := ec,
                   log := log }, store')

/-- Rows of the store at a given `file_path` (for uniqueness statements). -/
def countPath (store : List SpineFile) (p : String) : Nat :=
  (store.filter (fun r => r.file_path == p)).length

/-- First path segment that belongs to the known-site set: the
segment-scanning reading of the fallback sentence in the spec (the source
instead iterates the site list and takes the first site present among the
segments). -/
def firstSegmentSiteMatch (parts : List String) : Option String :=
  parts.find? (fun seg => knownSites.contains seg)


/-! ## Concrete environments for evaluating the pipeline -/

/-- Every path exists on disk, resolves to itself, and no container can be
opened (a corrupt file). -/
def envUnreadable : FSEnv where
  resolve := fun s => s
  parts := fun _ => []
  stem := fun _ => ""
  pathExists := fun _ => true
  glob := fun _ => []
  read := fun _ => none

/-- Path `"b"` is missing from disk; every other path exists but its
container is unreadable. -/
def envMissingB : FSEnv where
  resolve := fun s => s
  parts := fun _ => []
  stem := fun _ => ""
  pathExists := fun s => !(s == "b")
  glob := fun _ => []
  read := fun _ => none

/-- An `events` table with `run`/`subrun` first rows and event identifier
column values `[5, 3, 9, 7]`. -/
def evSample : EventsTable where
  run := some [12]
  subrun := some [1]
  event := some [5, 3, 9, 7]
  event_id := none

/-- A readable container holding `evSample` and only a version attribute
(no `model_name`/`config_name`). -/
def fileSample : H5File where
  attrs := [("spine_version", "0.7.0")]
  events := some evSample

/-- Every path exists, resolves to itself, has path segments
`["data", "icarus", "file.h5"]` and opens as `fileSample`. -/
def envReadable : FSEnv where
  resolve := fun s => s
  parts := fun _ => ["data", "icarus", "file.h5"]
  stem := fun _ => "file"
  pathExists := fun _ => true
  glob := fun _ => []
  read := fun _ => some fileSample

/-- Like `envReadable` but the path segments contain the known site
`"sbnd"` before the known site `"icarus"`, and the container carries no
attributes at all. -/
def envTwoSites : FSEnv where
  resolve := fun s => s
  parts := fun _ => ["data", "sbnd", "icarus", "file.h5"]
  stem := fun _ => "file"
  pathExists := fun _ => true
  glob := fun _ => []
  read := fun _ => some { attrs := [], events := none }

/-! ## Phase lemmas for the extractor -/

theorem applyAttrs_keeps (m : Metadata) (a : List (String × String)) :
    (applyAttrs m a).file_path = m.file_path ∧
    (applyAttrs m a).run = m.run ∧
    (applyAttrs m a).subrun = m.subrun ∧
    (applyAttrs m a).event_min = m.event_min ∧
    (applyAttrs m a).event_max = m.event_max ∧
    (applyAttrs m a).num_events = m.num_events := by
  unfold applyAttrs attrStepVersion attrStepProd attrStepModel attrStepDataset
  (repeat' split) <;> exact ⟨rfl, rfl, rfl, rfl, rfl, rfl⟩

theorem applyEvents_keeps (m : Metadata) (ev : EventsTable) :
    (applyEvents m ev).file_path = m.file_path ∧
    (applyEvents m ev).spine_version = m.spine_version ∧
    (applyEvents m ev).spine_prod_version = m.spine_prod_version ∧
    (applyEvents m ev).model_name = m.model_name ∧
    (applyEvents m ev).dataset_name = m.dataset_name := by
  unfold applyEvents eventsStepRun eventsStepSubrun eventsStepRange setEventRange
  (repeat' split) <;> exact ⟨rfl, rfl, rfl, rfl, rfl⟩

theorem applyFallbacks_keeps (env : FSEnv) (fp : String) (m : Metadata) :
    (applyFallbacks env fp m).file_path = m.file_path ∧
    (applyFallbacks env fp m).spine_version = m.spine_version ∧
    (applyFallbacks env fp m).spine_prod_version = m.spine_prod_version ∧
    (applyFallbacks env fp m).run = m.run ∧
    (applyFallbacks env fp m).subrun = m.subrun ∧
    (applyFallbacks env fp m).event_min = m.event_min ∧
    (applyFallbacks env fp m).event_max = m.event_max ∧
    (applyFallbacks env fp m).num_events = m.num_events := by
  unfold applyFallbacks fallbackModel fallbackDataset
  (repeat' split) <;> exact ⟨rfl, rfl, rfl, rfl, rfl, rfl, rfl, rfl⟩


theorem extract_metadata_file_path (env : FSEnv) (p : String) :
    (extract_metadata env p).file_path = some (env.resolve p) := by
  unfold extract_metadata
  cases h : env.read (env.resolve p) with
  | none => simp only [h]
  | some f =>
    simp only [h]
    rw [(applyFallbacks_keeps _ _ _).1]
    cases he : f.events with
    | none =>
      simp only [he]
      exact (applyAttrs_keeps _ _).1
    | some ev =>
      simp only [he]
      rw [(applyEvents_keeps _ _).1]
      exact (applyAttrs_keeps _ _).1


theorem applyEvents_range (m : Metadata) (ev : EventsTable) (ids : List Int)
    (hid : ev.event = some ids ∨ (ev.event = none ∧ ev.event_id = some ids))
    (hne : ids ≠ []) :
    (applyEvents m ev).event_min = ids.min? ∧
    (applyEvents m ev).event_max = ids.max? ∧
    (applyEvents m ev).num_events = some ids.length := by
  have hlen : ids.length > 0 := List.length_pos.mpr hne
  unfold applyEvents eventsStepRange
  rcases hid with h | ⟨h1, h2⟩
  · simp [h, setEventRange, if_pos hlen]
  · simp [h1, h2, setEventRange, if_pos hlen]

theorem applyAttrs_model (m : Metadata) (a : List (String × String))
    (h1 : attrLookup a "model_name" = none)
    (h2 : attrLookup a "config_name" = none) :
    (applyAttrs m a).model_name = m.model_name := by
  unfold applyAttrs attrStepDataset attrStepModel attrStepProd attrStepVersion
  simp only [h1, h2]
  (repeat' split) <;> rfl

theorem fallbackDataset_model (env : FSEnv) (fp : String) (m : Metadata) :
    (fallbackDataset env fp m).model_name = m.model_name := by
  unfold fallbackDataset
  split <;> rfl

theorem fallbackModel_of_none (env : FSEnv) (fp : String) (m : Metadata)
    (h : m.model_name = none) :
    (fallbackModel env fp m).model_name =
      knownSites.find? (fun part => (env.parts fp).contains part) := by
  unfold fallbackModel
  rw [h]
  cases hf : knownSites.find? (fun part => (env.parts fp).contains part) <;>
    simp [pyFalsy, hf, h]

theorem applyFallbacks_model_of_none (env : FSEnv) (fp : String) (m : Metadata)
    (h : m.model_name = none) :
    (applyFallbacks env fp m).model_name =
      knownSites.find? (fun part => (env.parts fp).contains part) := by
  unfold applyFallbacks
  rw [fallbackDataset_model, fallbackModel_of_none env fp m h]

/-! ## Store and indexer lemmas -/

theorem any_of_find_by_path_none (store : List SpineFile) (p : String)
    (h : find_by_path store p = none) :
    store.any (fun r => r.file_path == p) = false := by
  unfold find_by_path at h
  rw [List.find?_eq_none] at h
  rw [List.any_eq_false]
  exact fun r hr => h r hr

theorem countPath_of_find_none (store : List SpineFile) (p : String)
    (h : find_by_path store p = none) :
    countPath store p = 0 := by
  unfold find_by_path at h
  rw [List.find?_eq_none] at h
  unfold countPath
  simp only [List.length_eq_zero, List.filter_eq_nil_iff]
  exact h

theorem index_file_skips (env : FSEnv) (store : List SpineFile) (p : String)
    (h : (find_by_path store (env.resolve p)).isSome = true) :
    index_file env store p true = (true, store, Outcome.skipped (env.resolve p)) := by
  unfold index_file
  simp only [Bool.true_and, h, if_true]

theorem index_file_inserts (env : FSEnv) (store : List SpineFile) (p : String)
    (skip : Bool)
    (hres : env.resolve (env.resolve p) = env.resolve p)
    (h : find_by_path store (env.resolve p) = none) :
    index_file env store p skip =
      (true,
       store ++
         [rowFromMetadata (extract_metadata env (env.resolve p)) (env.resolve p)],
       Outcome.indexed (env.resolve p)) := by
  have hno : store.any (fun r => r.file_path == env.resolve p) = false :=
    any_of_find_by_path_none store _ h
  unfold index_file
  simp only [h, Option.isSome_none, Bool.and_false, Bool.false_eq_true, if_false,
             extract_metadata_file_path, hres, insertRecord, rowFromMetadata, hno]

theorem index_file_dup (env : FSEnv) (store : List SpineFile) (p : String)
    (hres : env.resolve (env.resolve p) = env.resolve p)
    (hdup : store.any (fun r => r.file_path == env.resolve p) = true) :
    index_file env store p false = (false, store, Outcome.insertFailed (env.resolve p)) := by
  unfold index_file
  simp only [Bool.false_and, Bool.false_eq_true, if_false,
             extract_metadata_file_path, hres, insertRecord, rowFromMetadata, hdup,
             if_true]

theorem processFile_missing (env : FSEnv) (store : List SpineFile) (p : String)
    (skip : Bool) (h : env.pathExists p = false) :
    processFile env store p skip = (false, store, Outcome.notFound p) := by
  unfold processFile
  simp [h]

theorem processFile_success (env : FSEnv) (store : List SpineFile) (p : String)
    (hres : env.resolve (env.resolve p) = env.resolve p)
    (h : env.pathExists p = true) :
    (processFile env store p true).1 = true := by
  unfold processFile
  simp only [h, if_true]
  cases hfb : find_by_path store (env.resolve p) with
  | none => rw [index_file_inserts env store p true hres hfb]
  | some r => rw [index_file_skips env store p (by rw [hfb]; rfl)]

theorem runBatch_append (env : FSEnv) (skip : Bool) (xs ys : List String) :
    ∀ store : List SpineFile,
      runBatch env skip store (xs ++ ys) =
        ((runBatch env skip (runBatch env skip store xs).1 ys).1,
         (runBatch env skip store xs).2.1 +
           (runBatch env skip (runBatch env skip store xs).1 ys).2.1,
         (runBatch env skip store xs).2.2.1 +
           (runBatch env skip (runBatch env skip store xs).1 ys).2.2.1,
         (runBatch env skip store xs).2.2.2 ++
           (runBatch env skip (runBatch env skip store xs).1 ys).2.2.2) := by
  induction xs with
  | nil => intro store; simp [runBatch]
  | cons p rest ih =>
    intro store
    rcases hpf : processFile env store p skip with ⟨ok, s', oc⟩
    simp only [List.cons_append, runBatch, hpf, List.append_eq]
    rw [ih s']
    rcases hr1 : runBatch env skip s' rest with ⟨s1, sc1, ec1, log1⟩
    rcases hr2 : runBatch env skip s1 ys with ⟨s2, sc2, ec2, log2⟩
    simp [Nat.add_assoc]

theorem runBatch_counts (env : FSEnv) (skip : Bool) (xs : List String) :
    ∀ store : List SpineFile,
      (runBatch env skip store xs).2.1 + (runBatch env skip store xs).2.2.1 =
        xs.length ∧
      (runBatch env skip store xs).2.2.2.length = xs.length := by
  induction xs with
  | nil => intro store; simp [runBatch]
  | cons p rest ih =>
    intro store
    rcases hpf : processFile env store p skip with ⟨ok, s', oc⟩
    simp only [runBatch, hpf]
    rcases hr : runBatch env skip s' rest with ⟨s1, sc, ec, log⟩
    have hih := ih s'
    rw [hr] at hih
    cases ok <;> simp_all <;> omega

theorem runBatch_all_success (env : FSEnv)
    (hres : ∀ q, env.resolve (env.resolve q) = env.resolve q) (xs : List String)
    (hall : ∀ p ∈ xs, env.pathExists p = true) :
    ∀ store : List SpineFile,
      (runBatch env true store xs).2.1 = xs.length ∧
      (runBatch env true store xs).2.2.1 = 0 := by
  induction xs with
  | nil => intro store; simp [runBatch]
  | cons p rest ih =>
    intro store
    rcases hpf : processFile env store p true with ⟨ok, s', oc⟩
    have hok : ok = true := by
      have hs := processFile_success env store p (hres p)
        (hall p (List.mem_cons_self p rest))
      rw [hpf] at hs
      exact hs
    subst hok
    simp only [runBatch, hpf]
    have hih := ih (fun f hf => hall f (List.mem_cons_of_mem p hf)) s'
    rcases hr : runBatch env true s' rest with ⟨s1, sc, ec, log⟩
    rw [hr] at hih
    simp_all
    omega

theorem expandPatterns_append (env : FSEnv) (xs ys : List String) :
    expandPatterns env (xs ++ ys) =
      expandPatterns env xs ++ expandPatterns env ys := by
  induction xs with
  | nil => rfl
  | cons p rest ih => simp [expandPatterns, ih]

theorem expandPatterns_no_wildcard (env : FSEnv) (xs : List String)
    (h : ∀ f ∈ xs, hasWildcard f = false) :
    expandPatterns env xs = xs := by
  induction xs with
  | nil => rfl
  | cons p rest ih =>
    have hp := h p (List.mem_cons_self p rest)
    have hr := ih (fun f hf => h f (List.mem_cons_of_mem p hf))
    simp [expandPatterns, hp, hr]

theorem countPath_append_row (store : List SpineFile) (r : SpineFile)
    (p : String) :
    countPath (store ++ [r]) p =
      countPath store p + (if r.file_path == p then 1 else 0) := by
  unfold countPath
  rw [List.filter_append, List.length_append]
  congr 1
  simp only [List.filter_cons, List.filter_nil]
  split <;> simp

theorem find_by_path_append_self (store : List SpineFile) (r : SpineFile) :
    (find_by_path (store ++ [r]) r.file_path).isSome = true := by
  unfold find_by_path
  rw [List.find?_isSome]
  exact ⟨r, by simp, by simp⟩

/-! ## The claims -/

/-- Claim C1: with `skip_existing=true`, indexing a path whose resolved
form is not yet in the catalog succeeds and inserts exactly one row for
that resolved path, and indexing the same path again finds the existing
row by path, reports it as skipped, counts it as a success (`True`), and
performs no insert — the store is returned unchanged. -/
theorem c1_skip_existing_idempotent (env : FSEnv) (store : List SpineFile)
    (p : String)
    (hres : env.resolve (env.resolve p) = env.resolve p)
    (h0 : find_by_path store (env.resolve p) = none) :
    (index_file env store p true).1 = true ∧
    countPath store (env.resolve p) = 0 ∧
    countPath (index_file env store p true).2.1 (env.resolve p) =
      countPath store (env.resolve p) + 1 ∧
    index_file env (index_file env store p true).2.1 p true =
      (true, (index_file env store p true).2.1,
       Outcome.skipped (env.resolve p)) := by
  rw [index_file_inserts env store p true hres h0]
  refine ⟨rfl, countPath_of_find_none store _ h0, ?_, ?_⟩
  · rw [countPath_append_row]
    simp [rowFromMetadata]
  · exact index_file_skips env _ p
      (find_by_path_append_self store
        (rowFromMetadata (extract_metadata env (env.resolve p))
          (env.resolve p)))

/-- Witness for C1: the concrete environment `envUnreadable`, an empty
catalog, and path `"a.h5"`. -/
theorem c1_skip_existing_idempotent_witness :
    (index_file envUnreadable [] "a.h5" true).1 = true ∧
    countPath ([] : List SpineFile) "a.h5" = 0 ∧
    countPath (index_file envUnreadable [] "a.h5" true).2.1 "a.h5" =
      countPath ([] : List SpineFile) "a.h5" + 1 ∧
    index_file envUnreadable (index_file envUnreadable [] "a.h5" true).2.1
        "a.h5" true =
      (true, (index_file envUnreadable [] "a.h5" true).2.1,
       Outcome.skipped "a.h5") :=
  c1_skip_existing_idempotent envUnreadable [] "a.h5" rfl rfl

/-- Claim C2 counterexample: a batch of N = 1 candidates whose single file
exists on disk but is corrupt (the container cannot be opened).  The claim
requires N−1 = 0 successes and 1 error; the code instead catches the read
failure inside `extract_metadata`, validates the partial record, inserts
it, and reports 1 success and 0 errors. -/
theorem c2_corrupt_counterexample :
    index_files envUnreadable (some []) ["corrupt.h5"] true =
      Except.ok
        ({ total := 1, success := 1, errors := 0,
           log := [Outcome.indexed "corrupt.h5"] },
         [{ file_path := "corrupt.h5", spine_version := none,
            spine_prod_version := none, model_name := none,
            dataset_name := none, run := none, subrun := none,
            event_min := none, event_max := none, num_events := none }]) := by
  rfl

/-- Claim C2 (amended): for a batch of wildcard-free candidate paths in
which exactly one file `k` is missing from disk and the other N−1 exist,
`index_files` with `skip_existing=true` completes the whole batch with
N−1 successes and 1 error, and every other file's outcome is the same as
in the batch without `k`: the final store is identical and the outcome
log is the reduced batch's log with `notFound k` spliced in at `k`'s
position.  (The unamended claim also covered corrupt-but-readable files;
`c2_corrupt_counterexample` shows those are indexed as successes.) -/
theorem c2_missing_file_isolated (env : FSEnv) (store : List SpineFile)
    (l1 l2 : List String) (k : String)
    (hres : ∀ q, env.resolve (env.resolve q) = env.resolve q)
    (hk : env.pathExists k = false)
    (hall : ∀ f ∈ l1 ++ l2, env.pathExists f = true)
    (hw : ∀ f ∈ l1 ++ k :: l2, hasWildcard f = false) :
    ∃ rep st rep2 st2,
      index_files env (some store) (l1 ++ k :: l2) true =
        Except.ok (rep, st) ∧
      index_files env (some store) (l1 ++ l2) true = Except.ok (rep2, st2) ∧
      rep.total = l1.length + 1 + l2.length ∧
      rep.success = l1.length + l2.length ∧
      rep.errors = 1 ∧
      rep2.total = l1.length + l2.length ∧
      rep2.success = l1.length + l2.length ∧
      rep2.errors = 0 ∧
      st = st2 ∧
      rep.log = rep2.log.take l1.length ++
        Outcome.notFound k :: rep2.log.drop l1.length := by
  have hw2 : ∀ f ∈ l1 ++ l2, hasWildcard f = false := by
    intro f hf
    rcases List.mem_append.mp hf with h | h
    · exact hw f (List.mem_append.mpr (Or.inl h))
    · exact hw f (List.mem_append.mpr (Or.inr (List.mem_cons_of_mem k h)))
  have hall1 : ∀ f ∈ l1, env.pathExists f = true := fun f hf =>
    hall f (List.mem_append.mpr (Or.inl hf))
  have hall2 : ∀ f ∈ l2, env.pathExists f = true := fun f hf =>
    hall f (List.mem_append.mpr (Or.inr hf))
  unfold index_files
  rw [expandPatterns_no_wildcard env _ hw, expandPatterns_no_wildcard env _ hw2]
  rcases hB1 : runBatch env true store l1 with ⟨s1, sc1, ec1, log1⟩
  have hs1 := runBatch_all_success env hres l1 hall1 store
  rw [hB1] at hs1
  have hc1 := runBatch_counts env true l1 store
  rw [hB1] at hc1
  rcases hB2 : runBatch env true s1 l2 with ⟨s2, sc2, ec2, log2⟩
  have hs2 := runBatch_all_success env hres l2 hall2 s1
  rw [hB2] at hs2
  have hk1 : runBatch env true s1 (k :: l2) =
      (s2, sc2, 1 + ec2, Outcome.notFound k :: log2) := by
    simp [runBatch, processFile_missing env s1 k true hk, hB2]
  have hfull := runBatch_append env true l1 (k :: l2) store
  rw [hB1, hk1] at hfull
  have hred := runBatch_append env true l1 l2 store
  rw [hB1, hB2] at hred
  dsimp only at hs1 hc1 hs2
  dsimp only
  rw [hfull, hred]
  dsimp only
  refine ⟨_, _, _, _, rfl, rfl, ?_, ?_, ?_, ?_, ?_, ?_, rfl, ?_⟩
  · simp only [List.length_append, List.length_cons]
    omega
  · dsimp only
    omega
  · dsimp only
    omega
  · simp only [List.length_append]
  · dsimp only
    omega
  · dsimp only
    omega
  · dsimp only
    rw [List.take_left' hc1.2, List.drop_left' hc1.2]

/-- Witness for the amended C2: batch `["a", "b", "c"]` in `envMissingB`,
where `"b"` is missing from disk and `"a"`, `"c"` exist. -/
theorem c2_missing_file_isolated_witness :
    ∃ rep st rep2 st2,
      index_files envMissingB (some []) (["a"] ++ "b" :: ["c"]) true =
        Except.ok (rep, st) ∧
      index_files envMissingB (some []) (["a"] ++ ["c"]) true =
        Except.ok (rep2, st2) ∧
      rep.total = (["a"] : List String).length + 1 +
        (["c"] : List String).length ∧
      rep.success = (["a"] : List String).length +
        (["c"] : List String).length ∧
      rep.errors = 1 ∧
      rep2.total = (["a"] : List String).length +
        (["c"] : List String).length ∧
      rep2.success = (["a"] : List String).length +
        (["c"] : List String).length ∧
      rep2.errors = 0 ∧
      st = st2 ∧
      rep.log = rep2.log.take (["a"] : List String).length ++
        Outcome.notFound "b" :: rep2.log.drop (["a"] : List String).length :=
  c2_missing_file_isolated envMissingB [] ["a"] ["c"] "b" (fun _ => rfl)
    (by decide) (by decide) (by decide)

/-- Claim C3: indexing the same (existing, wildcard-free) path twice with
`skip_existing=false` starting from an empty catalog persists exactly one
row: the first pass inserts it, the second insert hits the uniqueness
check, is caught inside the per-file loop and rolled back (the final
store is exactly the one row from the first pass), the second file is
counted as an error, and the batch runs to completion with
`total = 2, success = 1, errors = 1`. -/
theorem c3_duplicate_insert_errors (env : FSEnv) (p : String)
    (hres : env.resolve (env.resolve p) = env.resolve p)
    (hex : env.pathExists p = true)
    (hw : hasWildcard p = false) :
    ∃ row : SpineFile,
      row.file_path = env.resolve p ∧
      index_files env (some []) [p, p] false =
        Except.ok
          ({ total := 2, success := 1, errors := 1,
             log := [Outcome.indexed (env.resolve p),
                     Outcome.insertFailed (env.resolve p)] },
           [row]) := by
  refine ⟨rowFromMetadata (extract_metadata env (env.resolve p))
    (env.resolve p), rfl, ?_⟩
  unfold index_files
  have hexp : expandPatterns env [p, p] = [p, p] := by
    simp [expandPatterns, hw]
  rw [hexp]
  have hpf1 : processFile env [] p false =
      (true,
       [rowFromMetadata (extract_metadata env (env.resolve p))
         (env.resolve p)],
       Outcome.indexed (env.resolve p)) := by
    unfold processFile
    simp only [hex, if_true]
    exact index_file_inserts env [] p false hres rfl
  have hpf2 : processFile env
      [rowFromMetadata (extract_metadata env (env.resolve p))
        (env.resolve p)] p false =
      (false,
       [rowFromMetadata (extract_metadata env (env.resolve p))
         (env.resolve p)],
       Outcome.insertFailed (env.resolve p)) := by
    unfold processFile
    simp only [hex, if_true]
    exact index_file_dup env _ p hres (by simp [rowFromMetadata])
  simp [runBatch, hpf1, hpf2]

/-- Witness for C3: the concrete environment `envUnreadable` and path
`"a.h5"`, indexed twice with `skip_existing=false`. -/
theorem c3_duplicate_insert_errors_witness :
    ∃ row : SpineFile,
      row.file_path = "a.h5" ∧
      index_files envUnreadable (some []) ["a.h5", "a.h5"] false =
        Except.ok
          ({ total := 2, success := 1, errors := 1,
             log := [Outcome.indexed "a.h5",
                     Outcome.insertFailed "a.h5"] },
           [row]) :=
  c3_duplicate_insert_errors envUnreadable "a.h5" rfl rfl (by decide)

/-- Claim C4: `index_files` fails fatally exactly when the store
connection / schema creation at the start of the run fails (`conn =
none`); with an established connection it always returns a report (no
per-file failure escapes the loop) whose `total` is the candidate count,
whose success and error counters sum to the total, and whose per-file
outcome log has one entry per candidate. -/
theorem c4_report_shape (env : FSEnv) (files : List String) (skip : Bool)
    (store : List SpineFile) :
    index_files env none files skip = Except.error () ∧
    ∃ rep st, index_files env (some store) files skip = Except.ok (rep, st) ∧
      rep.total = (expandPatterns env files).length ∧
      rep.success + rep.errors = rep.total ∧
      rep.log.length = rep.total := by
  refine ⟨rfl, ?_⟩
  unfold index_files
  have hc := runBatch_counts env skip (expandPatterns env files) store
  rcases hb : runBatch env skip store (expandPatterns env files) with
    ⟨s', sc, ec, log⟩
  rw [hb] at hc
  dsimp only at hc
  simp only [hb]
  exact ⟨_, _, rfl, rfl, hc.1, hc.2⟩

/-- Claim C5: in the embedding every failure mode of `extract_metadata`
is a value of `FSEnv.read`, and for every environment and path the
function returns a record that passes validation and whose `file_path`
is the resolved input path — it never propagates a failure to the
caller, degrading to a partial record instead. -/
theorem c5_extract_never_raises (env : FSEnv) (p : String) :
    validate_metadata (extract_metadata env p) = true ∧
    (extract_metadata env p).file_path = some (env.resolve p) := by
  have h := extract_metadata_file_path env p
  refine ⟨?_, h⟩
  unfold validate_metadata
  rw [h]
  rfl

/-- Claim C6: when the container at the resolved path cannot be opened or
read, `extract_metadata` returns the record whose `file_path` is the
resolved absolute path and in which every other field is absent. -/
theorem c6_read_failure_partial_record (env : FSEnv) (p : String)
    (h : env.read (env.resolve p) = none) :
    extract_metadata env p =
      { file_path := some (env.resolve p), spine_version := none,
        spine_prod_version := none, model_name := none, dataset_name := none,
        run := none, subrun := none, event_min := none, event_max := none,
        num_events := none } := by
  unfold extract_metadata
  simp only [h]

/-- Witness for C6: the concrete environment `envUnreadable`, where no
container can be opened. -/
theorem c6_read_failure_partial_record_witness :
    envUnreadable.read (envUnreadable.resolve "/data/a.h5") = none ∧
    extract_metadata envUnreadable "/data/a.h5" =
      { file_path := some "/data/a.h5", spine_version := none,
        spine_prod_version := none, model_name := none, dataset_name := none,
        run := none, subrun := none, event_min := none, event_max := none,
        num_events := none } :=
  ⟨rfl, c6_read_failure_partial_record envUnreadable "/data/a.h5" rfl⟩

/-- Claim C7: for a readable container whose `events` table has a
non-empty event identifier column (`event`, or else `event_id`),
extraction sets `event_min` to the column minimum, `event_max` to the
column maximum, and `num_events` to the row count. -/
theorem c7_event_range (env : FSEnv) (p : String) (f : H5File)
    (ev : EventsTable) (ids : List Int)
    (hr : env.read (env.resolve p) = some f)
    (he : f.events = some ev)
    (hid : ev.event = some ids ∨ (ev.event = none ∧ ev.event_id = some ids))
    (hne : ids ≠ []) :
    (extract_metadata env p).event_min = ids.min? ∧
    (extract_metadata env p).event_max = ids.max? ∧
    (extract_metadata env p).num_events = some ids.length := by
  unfold extract_metadata
  simp only [hr, he]
  refine ⟨?_, ?_, ?_⟩
  · rw [(applyFallbacks_keeps _ _ _).2.2.2.2.2.1]
    exact (applyEvents_range _ ev ids hid hne).1
  · rw [(applyFallbacks_keeps _ _ _).2.2.2.2.2.2.1]
    exact (applyEvents_range _ ev ids hid hne).2.1
  · rw [(applyFallbacks_keeps _ _ _).2.2.2.2.2.2.2]
    exact (applyEvents_range _ ev ids hid hne).2.2

/-- Witness for C7: the container `fileSample` whose identifier column is
`[5, 3, 9, 7]` yields `event_min = 3`, `event_max = 9`, `num_events = 4`. -/
theorem c7_event_range_witness :
    (extract_metadata envReadable "f.h5").event_min = some 3 ∧
    (extract_metadata envReadable "f.h5").event_max = some 9 ∧
    (extract_metadata envReadable "f.h5").num_events = some 4 := by
  have h := c7_event_range envReadable "f.h5" fileSample evSample [5, 3, 9, 7]
    rfl rfl (Or.inl rfl) (by decide)
  exact ⟨h.1.trans (by decide), h.2.1.trans (by decide),
    h.2.2.trans (by decide)⟩

/-- Claim C8 counterexample: the claim says the fallback scans the path
segments and the first matching segment wins.  On a resolved path whose
segments contain the known site `"sbnd"` before the known site
`"icarus"` (and a container with no model attributes), the segment-scan
reading yields `"sbnd"`, but the code iterates the fixed site list
`["icarus", "sbnd", "2x2", "nd-lar", "fsd"]` and yields `"icarus"`. -/
theorem c8_counterexample :
    (extract_metadata envTwoSites "/data/sbnd/icarus/file.h5").model_name =
      some "icarus" ∧
    firstSegmentSiteMatch
        (envTwoSites.parts "/data/sbnd/icarus/file.h5") = some "sbnd" := by
  exact ⟨by decide, by decide⟩

/-- Claim C8 (amended): when `model_name` is still absent after the
attribute-reading step of a successful read, extraction walks the fixed
known-site list `["icarus", "sbnd", "2x2", "nd-lar", "fsd"]` in that
order and sets `model_name` to the first listed site occurring among the
path segments of the resolved path (absent when none occurs); in
particular a path containing segment `"icarus"` yields `"icarus"`. -/
theorem c8_model_name_fallback (env : FSEnv) (p : String) (f : H5File)
    (hr : env.read (env.resolve p) = some f)
    (h1 : attrLookup f.attrs "model_name" = none)
    (h2 : attrLookup f.attrs "config_name" = none) :
    (extract_metadata env p).model_name =
      knownSites.find?
        (fun part => (env.parts (env.resolve p)).contains part) := by
  unfold extract_metadata
  simp only [hr]
  cases he : f.events with
  | none =>
    rw [applyFallbacks_model_of_none _ _ _
      (by rw [applyAttrs_model _ _ h1 h2])]
  | some ev =>
    rw [applyFallbacks_model_of_none _ _ _
      (by rw [(applyEvents_keeps _ _).2.2.2.1, applyAttrs_model _ _ h1 h2])]

/-- Witness for the amended C8: `envReadable` resolves every path to path
segments `["data", "icarus", "file.h5"]` and its container has no model
attribute, so the record's `model_name` is `"icarus"`. -/
theorem c8_model_name_fallback_witness :
    (extract_metadata envReadable "f.h5").model_name = some "icarus" := by
  have h := c8_model_name_fallback envReadable "f.h5" fileSample rfl
    (by decide) (by decide)
  exact h.trans (by decide)

/-- Claim C9: `index_files` builds its candidate list in input order —
the expansion of a concatenation is the concatenation of the expansions
(so duplicates from overlapping patterns are kept), a single entry
expands through the filesystem glob exactly when it contains a wildcard
character and is kept literally otherwise (whether or not it exists on
disk), and the report's `total` is the length of that candidate list. -/
theorem c9_candidate_expansion (env : FSEnv) (xs ys : List String)
    (p : String) (store : List SpineFile) (skip : Bool) :
    expandPatterns env (xs ++ ys) =
      expandPatterns env xs ++ expandPatterns env ys ∧
    expandPatterns env [p] =
      (if hasWildcard p then env.glob p else [p]) ∧
    ∃ rep st, index_files env (some store) xs skip = Except.ok (rep, st) ∧
      rep.total = (expandPatterns env xs).length := by
  refine ⟨expandPatterns_append env xs ys, by simp [expandPatterns], ?_⟩
  unfold index_files
  rcases hb : runBatch env skip store (expandPatterns env xs) with
    ⟨s', sc, ec, log⟩
  simp only [hb]
  exact ⟨_, _, rfl, rfl⟩

/-- Claim C10: every extractor output has a non-absent `file_path`, so
`validate_metadata` holds for it and the `Invalid metadata` error branch
of `index_file` is unreachable — no file is ever rejected by
validation. -/
theorem c10_validation_unreachable (env : FSEnv) (store : List SpineFile)
    (p : String) (b : Bool) :
    validate_metadata (extract_metadata env p) = true ∧
    Outcome.isInvalid (index_file env store p b).2.2 = false := by
  constructor
  · unfold validate_metadata
    rw [extract_metadata_file_path]
    rfl
  · unfold index_file
    dsimp only
    split
    · rfl
    · simp only [extract_metadata_file_path]
      split <;> rfl
